import Mathlib

/-!
Verification development for the rule-based file classification and
organization engine of the AUTOMATA02 repository (src/core/classifier.py,
src/core/organizer.py, src/core/config_manager.py, src/core/file_watcher.py).

Python strings are modelled as Lean String (with List Char used where
character-level reasoning is needed), Python int as Int/Nat, Python float
confidence tags as rationals, and dictionaries with optional keys as
structures with Option fields.  External collaborators (the regular
expression engine, the filesystem, the clock, the home directory) are
passed in as explicit parameters, mirroring the call the source makes.
-/

/-! ## Python path model (pathlib.PurePath name, stem, suffix, parent) -/

/-- A filesystem path as the organizer manipulates it: its parent directory
rendered as a string, and the final component (the filename). -/
structure PyPath where
  parent : String
  name : String
deriving DecidableEq

/-- Index of the last occurrence of a character in a list, if any
(models Python str.rfind restricted to single characters). -/
def rfindChar (c : Char) : List Char → Option Nat
  | [] => none
  | a :: rest =>
    match rfindChar c rest with
    | some i => some (i + 1)
    | none => if a = c then some 0 else none

/-- The (stem, suffix) split of a filename, exactly as pathlib computes
PurePath.stem and PurePath.suffix: the split happens at the last dot
provided it is neither the first nor the last character; otherwise the
suffix is empty. -/
def pySplitExt (name : List Char) : List Char × List Char :=
  match rfindChar '.' name with
  | some i => if 0 < i ∧ i < name.length - 1 then (name.take i, name.drop i) else (name, [])
  | none => (name, [])

/-- pathlib PurePath.stem of a filename. -/
def pyStem (name : String) : String := ⟨(pySplitExt name.data).1⟩

/-- pathlib PurePath.suffix of a filename. -/
def pySuffix (name : String) : String := ⟨(pySplitExt name.data).2⟩

/-- ASCII lowercasing of one character (the fragment of Python str.lower
exercised by the classifier, whose keyword and extension tables are ASCII). -/
def lowerChar (c : Char) : Char :=
  if 'A' ≤ c ∧ c ≤ 'Z' then Char.ofNat (c.toNat + 32) else c

/-- Python str.lower on the ASCII fragment. -/
def pyLower (s : List Char) : List Char := s.map lowerChar

/-- String-level wrapper for pyLower. -/
def pyLowerStr (s : String) : String := ⟨pyLower s.data⟩

/-! ## Data model of rules and classifications (src/core/classifier.py)

A rule is a dict with optional keys; rule.get with a default is modelled
by a structure field with a default value, and an optional key whose mere
presence is tested is an Option field. -/

/-- The condition set of a rule (the when mapping); a missing key means the
condition is absent and therefore not checked. -/
structure RuleWhen where
  filename_regex : Option String := none
  mime_in : Option (List String) := none
  mime_startswith : Option String := none
  path_regex : Option String := none
  size_lt_bytes : Option Int := none
  size_gt_bytes : Option Int := none
deriving DecidableEq

/-- The action set of a rule (the then mapping). -/
structure RuleThen where
  label : Option String := none
  tags_add : Option (List String) := none
  move_to : Option String := none
  rename_to : Option String := none
deriving DecidableEq

/-- A classification rule; priority defaults to 100 and active to true,
exactly as rule.get supplies them in _apply_rules. -/
structure Rule where
  name : String
  priority : Int := 100
  active : Bool := true
  when' : RuleWhen := {}
  then' : RuleThen := {}
deriving DecidableEq

/-- The inputs _rule_matches reads about one file: base filename, the full
path string, the stat size, and the already-resolved MIME type (the value
classify_file computes before applying rules; the empty string models an
absent MIME type, Python None). -/
structure FileInfo where
  name : String
  path : String
  size : Int
  mime : String
deriving DecidableEq

/-- Check an optional condition: an absent key imposes nothing, a present
key must pass its test (the shape of every if-key-in-conditions guard in
_rule_matches). -/
def checkOpt {α : Type} (o : Option α) (f : α → Bool) : Bool :=
  match o with
  | none => true
  | some a => f a

/-- FileClassifier._rule_matches.  The regular-expression engine is an
explicit parameter: search pat s stands for the Python call
re.search(pat, s, re.IGNORECASE) being a match (the source always passes
the IGNORECASE flag).  All other conditions are computed exactly as the
source does: mime_in is case-sensitive exact membership, mime_startswith
requires a present (nonempty) MIME type and a case-sensitive prefix, the
size bounds are strict. -/
def _rule_matches (search : String → String → Bool) (file : FileInfo) (rule : Rule) : Bool :=
  checkOpt rule.when'.filename_regex (fun pat => search pat file.name) &&
  checkOpt rule.when'.mime_in (fun l => decide (file.mime ∈ l)) &&
  checkOpt rule.when'.mime_startswith
    (fun p => decide (file.mime ≠ "") && p.data.isPrefixOf file.mime.data) &&
  checkOpt rule.when'.path_regex (fun pat => search pat file.path) &&
  checkOpt rule.when'.size_lt_bytes (fun b => decide (file.size < b)) &&
  checkOpt rule.when'.size_gt_bytes (fun b => decide (b < file.size))

/-- The dict _apply_rule_actions builds from the matched rule's then block. -/
structure RuleResult where
  label : String
  tags : List String
  rule_matched : String
  move_to : Option String
  rename_to : Option String
deriving DecidableEq

/-- FileClassifier._apply_rule_actions. -/
def _apply_rule_actions (rule : Rule) : RuleResult :=
  { label := rule.then'.label.getD "other"
    tags := rule.then'.tags_add.getD []
    rule_matched := rule.name
    move_to := rule.then'.move_to
    rename_to := rule.then'.rename_to }

/-- Priority comparison used to sort rules (lower value first). -/
def rulePriorityLE (a b : Rule) : Prop := a.priority ≤ b.priority

instance instRulePriorityLEDecidable : DecidableRel rulePriorityLE :=
  fun a b => inferInstanceAs (Decidable (a.priority ≤ b.priority))

instance instRulePriorityLETotal : IsTotal Rule rulePriorityLE :=
  ⟨fun a b => Int.le_total a.priority b.priority⟩

instance instRulePriorityLETrans : IsTrans Rule rulePriorityLE :=
  ⟨fun _ _ _ h₁ h₂ => le_trans h₁ h₂⟩

/-- The stable priority sort performed at the top of _apply_rules
(Python sorted with key priority is a stable sort; insertion sort with a
non-strict comparison realizes exactly that specification). -/
def sortRules (rules : List Rule) : List Rule :=
  List.insertionSort rulePriorityLE rules

/-- The scan loop of _apply_rules: skip inactive rules, return the actions
of the first rule whose conditions match, stop there. -/
def applyRulesLoop (search : String → String → Bool) (file : FileInfo) :
    List Rule → Option RuleResult
  | [] => none
  | rule :: rest =>
    if rule.active = false then applyRulesLoop search file rest
    else if _rule_matches search file rule then some (_apply_rule_actions rule)
    else applyRulesLoop search file rest

/-- FileClassifier._apply_rules. -/
def _apply_rules (search : String → String → Bool) (file : FileInfo)
    (rules : List Rule) : Option RuleResult :=
  applyRulesLoop search file (sortRules rules)

/-! ## Fallback classification (FileClassifier._fallback_classification) -/

/-- The fixed finance keyword list of _fallback_classification. -/
def finance_patterns : List String :=
  ["invoice", "bill", "statement", "receipt", "transaction",
   "bank", "credit", "debit", "payment", "expense"]

/-- The fixed document extension list. -/
def document_types : List String := [".pdf", ".doc", ".docx", ".txt", ".rtf"]

/-- The fixed code extension list. -/
def code_extensions : List String :=
  [".py", ".js", ".html", ".css", ".java", ".cpp", ".c", ".h",
   ".php", ".rb", ".go", ".rs", ".swift", ".kt"]

/-- The fixed archive extension list. -/
def archive_extensions : List String := [".zip", ".rar", ".tar", ".gz", ".7z"]

/-- Python: pattern in filename_lower, for some pattern of the finance list
(the for loop returns on the first hit, and every hit yields the same
classification, so any-semantics is exact). -/
def financeHit (file : FileInfo) : Bool :=
  finance_patterns.any (fun p => decide (p.data <:+: pyLower file.name.data))

/-- Python: mime_type and mime_type.startswith(prefix) - a truthiness test
(nonempty string) followed by a case-sensitive prefix test. -/
def mimeStarts (mime : String) (p : String) : Bool :=
  decide (mime ≠ "") && p.data.isPrefixOf mime.data

/-- The label and tags a fallback classification carries. -/
structure Fallback where
  label : String
  tags : List String
deriving DecidableEq

/-- FileClassifier._fallback_classification: the fixed cascade, first match
wins. -/
def _fallback_classification (file : FileInfo) : Fallback :=
  let extension := pyLowerStr (pySuffix file.name)
  if financeHit file then ⟨"finance", ["auto-classified"]⟩
  else if mimeStarts file.mime "image/" then ⟨"media", ["image", "auto-classified"]⟩
  else if mimeStarts file.mime "video/" then ⟨"media", ["video", "auto-classified"]⟩
  else if mimeStarts file.mime "audio/" then ⟨"media", ["audio", "auto-classified"]⟩
  else if extension ∈ document_types then ⟨"documents", ["document", "auto-classified"]⟩
  else if extension ∈ code_extensions then ⟨"code", ["source-code", "auto-classified"]⟩
  else if extension ∈ archive_extensions then ⟨"archives", ["archive", "auto-classified"]⟩
  else ⟨"other", ["unclassified"]⟩

/-- FileClassifier._guess_mime_from_extension: the internal extension to
MIME map, defaulting to application/octet-stream. -/
def _guess_mime_from_extension (extension : String) : String :=
  if extension = ".pdf" then "application/pdf"
  else if extension = ".doc" then "application/msword"
  else if extension = ".docx" then
    "application/vnd.openxmlformats-officedocument.wordprocessingml.document"
  else if extension = ".xls" then "application/vnd.ms-excel"
  else if extension = ".xlsx" then
    "application/vnd.openxmlformats-officedocument.spreadsheetml.sheet"
  else if extension = ".txt" then "text/plain"
  else if extension = ".jpg" then "image/jpeg"
  else if extension = ".jpeg" then "image/jpeg"
  else if extension = ".png" then "image/png"
  else if extension = ".gif" then "image/gif"
  else if extension = ".mp4" then "video/mp4"
  else if extension = ".avi" then "video/avi"
  else if extension = ".mp3" then "audio/mpeg"
  else if extension = ".wav" then "audio/wav"
  else if extension = ".zip" then "application/zip"
  else if extension = ".py" then "text/x-python"
  else "application/octet-stream"

/-- Resolution of the MIME type at the top of classify_file: the result of
mimetypes.guess_type (an external collaborator, hence a parameter; none or
the empty string are falsy) with _guess_mime_from_extension on the
lowercased suffix as fallback. -/
def resolveMime (guess : Option String) (name : String) : String :=
  match guess with
  | some m => if m = "" then _guess_mime_from_extension (pyLowerStr (pySuffix name)) else m
  | none => _guess_mime_from_extension (pyLowerStr (pySuffix name))

/-- The metadata mapping of a classification. -/
structure Metadata where
  filename : String
  extension : String
  size_bytes : Int
deriving DecidableEq

/-- A classification result.  Confidence is one of the literals 0.9, 0.5,
0.0 the source assigns, modelled as exact rationals; keys absent from the
base dict (rule_matched, move_to, rename_to) are Option fields that stay
none unless a rule matched. -/
structure Classification where
  label : String
  tags : List String
  mime_type : String
  confidence : ℚ
  metadata : Metadata
  rule_matched : Option String
  move_to : Option String
  rename_to : Option String
deriving DecidableEq

/-- FileClassifier.classify_file on a stat-able file, after MIME
resolution: build the base classification, apply the rules, and on a match
update it with the rule actions and confidence 0.9, otherwise take the
fallback label and tags with confidence 0.5. -/
def classify_file (search : String → String → Bool) (rules : List Rule)
    (file : FileInfo) : Classification :=
  let base : Classification :=
    { label := "other"
      tags := []
      mime_type := file.mime
      confidence := 0
      metadata := ⟨file.name, pyLowerStr (pySuffix file.name), file.size⟩
      rule_matched := none
      move_to := none
      rename_to := none }
  match _apply_rules search file rules with
  | some m =>
    { base with
      label := m.label, tags := m.tags, rule_matched := some m.rule_matched,
      move_to := m.move_to, rename_to := m.rename_to, confidence := 9/10 }
  | none =>
    let fb := _fallback_classification file
    { base with label := fb.label, tags := fb.tags, confidence := 1/2 }

/-! ## Path template expansion (FileOrganizer._expand_path_template)

Python str.replace replaces every non-overlapping occurrence left to
right, never rescanning the replacement text.  It is modelled on List Char
by a fuel-indexed scan (fuel bounds the number of examined positions; the
wrapper supplies the string length, which always suffices). -/

/-- One pass of Python str.replace: scan left to right, at each position
replace a pattern occurrence and continue after it, otherwise keep the
character.  fuel decreases by one per step; a replaced occurrence consumes
at least one character, so length-many steps are enough. -/
def replaceAllF (pat repl : List Char) : Nat → List Char → List Char
  | _, [] => []
  | 0, s => s
  | fuel + 1, c :: rest =>
    if !pat.isEmpty && pat.isPrefixOf (c :: rest) then
      repl ++ replaceAllF pat repl fuel (List.drop pat.length (c :: rest))
    else
      c :: replaceAllF pat repl fuel rest

/-- Python str.replace(pat, repl) on s. -/
def replaceAll (pat repl s : List Char) : List Char :=
  replaceAllF pat repl s.length s

/-- The clock value the organizer reads (datetime.now()), already split
into the calendar fields the template uses. -/
structure PyDateTime where
  year : Nat
  month : Nat
  day : Nat
  hour : Nat
  minute : Nat
  second : Nat
deriving DecidableEq

/-- Python f-string 02d zero padding. -/
def pad2 (n : Nat) : String := if n < 10 then "0" ++ toString n else toString n

/-- The literal placeholder text for YYYY (written as characters to keep
brace characters out of string literals). -/
def phYYYY : List Char := ['{', '{', 'Y', 'Y', 'Y', 'Y', '}', '}']

/-- Placeholder text for MM. -/
def phMM : List Char := ['{', '{', 'M', 'M', '}', '}']

/-- Placeholder text for DD. -/
def phDD : List Char := ['{', '{', 'D', 'D', '}', '}']

/-- Placeholder text for HH. -/
def phHH : List Char := ['{', '{', 'H', 'H', '}', '}']

/-- Placeholder text for mm. -/
def phmm : List Char := ['{', '{', 'm', 'm', '}', '}']

/-- Placeholder text for ss. -/
def phss : List Char := ['{', '{', 's', 's', '}', '}']

/-- Placeholder text for BASENAME. -/
def phBASENAME : List Char :=
  ['{', '{', 'B', 'A', 'S', 'E', 'N', 'A', 'M', 'E', '}', '}']

/-- Placeholder text for STEM. -/
def phSTEM : List Char := ['{', '{', 'S', 'T', 'E', 'M', '}', '}']

/-- Placeholder text for EXT. -/
def phEXT : List Char := ['{', '{', 'E', 'X', 'T', '}', '}']

/-- Placeholder text for HOME. -/
def phHOME : List Char := ['{', '{', 'H', 'O', 'M', 'E', '}', '}']

/-- The ten template.replace calls of _expand_path_template, in source
order, as pattern and replacement pairs.  sourceName is the final
component of the source path (source_path.name); home is str(Path.home()),
an external collaborator passed in explicitly. -/
def substitutions (now : PyDateTime) (sourceName : String) (home : String) :
    List (List Char × List Char) :=
  [ (phYYYY, (toString now.year).data),
    (phMM, (pad2 now.month).data),
    (phDD, (pad2 now.day).data),
    (phHH, (pad2 now.hour).data),
    (phmm, (pad2 now.minute).data),
    (phss, (pad2 now.second).data),
    (phBASENAME, sourceName.data),
    (phSTEM, (pyStem sourceName).data),
    (phEXT, (pySuffix sourceName).data),
    (phHOME, home.data) ]

/-- FileOrganizer._expand_path_template: apply the ten replacements in
source order.  The function is total: unrecognized placeholder-looking
text is simply left in place. -/
def _expand_path_template (now : PyDateTime) (sourceName : String) (home : String)
    (template : List Char) : List Char :=
  (substitutions now sourceName home).foldl (fun t pr => replaceAll pr.1 pr.2 t) template

/-! ## Filename conflict resolution (FileOrganizer._resolve_filename_conflict)

The filesystem existence test (Path.exists) is an external collaborator,
passed in as a predicate on paths. -/

/-- The counter-suffixed candidate paths the loop tries: parent / stem_N
suffix, built with f-string formatting from the destination decomposition. -/
def candidate (dest : PyPath) (counter : Nat) : PyPath :=
  ⟨dest.parent, pyStem dest.name ++ "_" ++ toString counter ++ pySuffix dest.name⟩

/-- The while-True loop of _resolve_filename_conflict: try the candidate
for the current counter, return it if free, otherwise advance; after the
increment, a counter above 1000 returns the original destination.  fuel is
the number of remaining iterations (1000 at entry, which the counter check
makes exact). -/
def conflictLoop (fs : PyPath → Bool) (dest : PyPath) : Nat → Nat → PyPath
  | _, 0 => dest
  | counter, fuel + 1 =>
    if fs (candidate dest counter) = false then candidate dest counter
    else if 1000 < counter + 1 then dest
    else conflictLoop fs dest (counter + 1) fuel

/-- FileOrganizer._resolve_filename_conflict. -/
def _resolve_filename_conflict (fs : PyPath → Bool) (destination_path : PyPath) : PyPath :=
  if fs destination_path = false then destination_path
  else conflictLoop fs destination_path 1 1000

/-! ## Organizer (FileOrganizer.organize_file)

Directory creation and shutil.move are external I/O whose success or
failure is injected through an environment; the except branch of the
source converts any failure into an error activity-log entry and the
original path. -/

/-- Outcome of one external I/O call. -/
inductive IOResult
  | ok
  | err (msg : String)
deriving DecidableEq

/-- One db_manager.log_activity call as the organizer issues it: action
name, file path, and status (log_activity defaults the status to success;
the failure path passes error explicitly). -/
structure Activity where
  action : String
  file_path : String
  status : String
deriving DecidableEq

/-- The external world organize_file touches: the clock, the home
directory, filesystem existence for conflict resolution, and the outcomes
of the mkdir and move calls. -/
structure OrganizeEnv where
  now : PyDateTime
  home : String
  fs : PyPath → Bool
  mkdirResult : IOResult
  moveResult : IOResult

/-- Splitting a rendered path string into pathlib parent and name (split
at the last slash; a bare filename has parent "."). -/
def pathOfString (s : String) : PyPath :=
  match rfindChar '/' s.data with
  | some i => ⟨⟨s.data.take i⟩, ⟨s.data.drop (i + 1)⟩⟩
  | none => ⟨".", s⟩

/-- Rendering a PyPath back to the string form the organizer returns. -/
def pathToString (p : PyPath) : String := p.parent ++ "/" ++ p.name

/-- FileOrganizer.organize_file, returning the path handed back to the
caller together with the activity-log entries recorded.  Without a move_to
template the file stays in place and nothing is logged; a failing mkdir or
move is caught by the except branch, which logs a file_organize_failed
entry with error status and returns the original path. -/
def organize_file (env : OrganizeEnv) (file_path : String)
    (classification : Classification) : String × List Activity :=
  match classification.move_to with
  | none => (file_path, [])
  | some move_to =>
    let source_path := pathOfString file_path
    let destination : List Char :=
      _expand_path_template env.now source_path.name env.home move_to.data
    match env.mkdirResult with
    | IOResult.err _ => (file_path, [⟨"file_organize_failed", file_path, "error"⟩])
    | IOResult.ok =>
      let final := _resolve_filename_conflict env.fs (pathOfString ⟨destination⟩)
      match env.moveResult with
      | IOResult.err _ => (file_path, [⟨"file_organize_failed", file_path, "error"⟩])
      | IOResult.ok => (pathToString final, [⟨"file_organized", file_path, "success"⟩])

/-! ## Rule loading (ConfigManager.get_rules / add_rule)

get_rules opens and JSON-parses the rules file; both steps are external
and their outcome is injected: none models an I/O or parse error (the
except branch), some none a parse result that is not a list, and
some (some docs) a parsed list of rule documents. -/

/-- A rule document as parsed from rules.json: every key optional, nothing
validated. -/
structure RuleDoc where
  name : Option String := none
  priority : Option Int := none
  active : Option Bool := none
  filename_regex : Option String := none
  path_regex : Option String := none
deriving DecidableEq

/-- ConfigManager.get_rules: return the parsed list unchanged when it is a
list, and the empty list on a read or parse error or a non-list document.
No rule-level validation of any kind is performed and nothing is raised. -/
def get_rules (readResult : Option (Option (List RuleDoc))) : List RuleDoc :=
  match readResult with
  | none => []
  | some none => []
  | some (some rules) => rules

/-- ConfigManager.add_rule: append the new rule to whatever get_rules
returned and report success; the rule itself is never validated. -/
def add_rule (readResult : Option (Option (List RuleDoc))) (rule : RuleDoc) :
    List RuleDoc × Bool :=
  (get_rules readResult ++ [rule], true)

/-- Modelled from the spec: the validating RuleSet.load of spec section 4.1,
which the repository does not implement anywhere (no InvalidRuleError
exists in the source).  It rejects (none, standing for raising
InvalidRuleError) any input containing a rule without a name or with a
filename_regex or path_regex that the regex engine (the compiles
parameter) does not accept, and returns the rules otherwise. -/
def load_rules_spec (compiles : String → Bool) (docs : List RuleDoc) :
    Option (List RuleDoc) :=
  if docs.all (fun r =>
      r.name.isSome &&
      checkOpt r.filename_regex compiles &&
      checkOpt r.path_regex compiles)
  then some docs else none

/-! ## Debounced event pipeline (FileWatcherHandler, FileWatcher)

The per-key debounce of _debounce_event / _process_event is modelled as a
discrete-event timeline for one event key: arriving events carry a time
and a payload; the pending timer (if any) carries its fire time and
payload.  A new arrival for the key cancels a still-pending timer and
discards its payload (Timer.cancel), then schedules a fresh timer one
delay later carrying the new payload; a timer whose fire time has been
reached before the next arrival dispatches (its _process_event call runs).
A simultaneous expiry and arrival is resolved as fire-first; the claims
only concern bursts, where this tie never occurs. -/

/-- One filesystem event for a fixed event key. -/
structure FsEvent where
  t : ℚ
  payload : String
deriving DecidableEq

/-- The debounce semantics for one event key over a time-ordered list of
arrivals, starting from an optional pending timer; returns the dispatches
(fire time and payload) in order. -/
def debounceSim (delay : ℚ) : List FsEvent → Option (ℚ × String) → List (ℚ × String)
  | [], none => []
  | [], some tp => [tp]
  | e :: rest, none => debounceSim delay rest (some (e.t + delay, e.payload))
  | e :: rest, some (ft, fp) =>
    if ft ≤ e.t then (ft, fp) :: debounceSim delay rest (some (e.t + delay, e.payload))
    else debounceSim delay rest (some (e.t + delay, e.payload))

/-- The events strictly after time t0 all fall within one debounce window
of their predecessor (the burst hypothesis of the coalescing claim). -/
def burstFrom (delay : ℚ) : ℚ → List FsEvent → Bool
  | _, [] => true
  | t0, e :: rest => decide (t0 < e.t) && decide (e.t < t0 + delay) && burstFrom delay e.t rest

/-- Arrival time of the last event of a burst (t0 if there is none). -/
def lastTime (t0 : ℚ) : List FsEvent → ℚ
  | [] => t0
  | e :: rest => lastTime e.t rest

/-- Payload of the last event of a burst (p0 if there is none). -/
def lastPayload (p0 : String) : List FsEvent → String
  | [] => p0
  | e :: rest => lastPayload e.payload rest

/-- The watcher state FileWatcher.stop manipulates: the running flag, the
observer subscription (true while the watchdog observer thread is
scheduled and alive; stop plus join sets it false), and the handler's
pending debounce timers with their fire times and payloads. -/
structure WatcherState where
  running : Bool
  observed : Bool
  pending : List (ℚ × String)
deriving DecidableEq

/-- FileWatcher.stop: a no-op (with a warning) when not running; otherwise
observer.stop() and observer.join() end the subscription and wait for the
watch thread, and the running flag is cleared.  The handler's pending
debounce timers are not touched by any statement of stop. -/
def FileWatcher_stop (s : WatcherState) : WatcherState :=
  if s.running = false then s
  else { running := false, observed := false, pending := s.pending }

/-- Modelled from the spec: the stop of spec sections 4.7 and 5, which
additionally cancels every still-pending debounce timer (discarding the
payloads) before returning; the repository's stop has no such code. -/
def stop_spec (s : WatcherState) : WatcherState :=
  if s.running = false then s
  else { running := false, observed := false, pending := [] }

/-! ## Claim C7: rule loading and InvalidRuleError -/

/-- A rule document lacking a name (every field left at its absent
default). -/
def noNameDoc : RuleDoc := {}

/-- Claim C7 counterexample: the spec-modelled validating load rejects a
ruleset containing a rule without a name, but the repository's get_rules
returns exactly that ruleset successfully; no InvalidRuleError (or any
exception) is raised anywhere in rule loading. -/
theorem C7_counterexample :
    load_rules_spec (fun _ => true) [noNameDoc] = none ∧
    get_rules (some (some [noNameDoc])) = [noNameDoc] := by
  constructor <;> rfl

/-- Claim C7 amended: loading never fails and never validates: get_rules
returns any parsed list unchanged even when some rule lacks a name or has
a regex the engine rejects (where the spec-modelled loader errors), it
returns the empty list on read or parse errors instead of raising, and
add_rule appends without validation and reports success. -/
theorem C7_amended : ∀ (compiles : String → Bool) (docs : List RuleDoc),
    (∃ r ∈ docs, r.name = none ∨
      (∃ p, r.filename_regex = some p ∧ compiles p = false) ∨
      (∃ p, r.path_regex = some p ∧ compiles p = false)) →
    get_rules (some (some docs)) = docs ∧
    get_rules none = [] ∧
    get_rules (some none) = [] ∧
    (∀ rule, add_rule (some (some docs)) rule = (docs ++ [rule], true)) ∧
    load_rules_spec compiles docs = none := by
  intro compiles docs hbad
  refine ⟨rfl, rfl, rfl, fun rule => rfl, ?_⟩
  obtain ⟨r, hr, hcase⟩ := hbad
  unfold load_rules_spec
  have hfail : (r.name.isSome &&
      checkOpt r.filename_regex compiles && checkOpt r.path_regex compiles) = false := by
    rcases hcase with h | ⟨p, hp, hc⟩ | ⟨p, hp, hc⟩
    · simp [h]
    · simp [hp, checkOpt, hc]
    · simp [hp, checkOpt, hc]
  have : docs.all (fun r => r.name.isSome &&
      checkOpt r.filename_regex compiles && checkOpt r.path_regex compiles) = false := by
    rw [List.all_eq_false]
    exact ⟨r, hr, by simp [hfail]⟩
  simp [this]

/-- Claim C7 amended witness at a concrete malformed ruleset. -/
theorem C7_amended_witness :
    get_rules (some (some [noNameDoc])) = [noNameDoc] ∧
    load_rules_spec (fun _ => false) [noNameDoc] = none := by
  have h := C7_amended (fun _ => false) [noNameDoc] ⟨noNameDoc, by decide, Or.inl rfl⟩
  exact ⟨h.1, h.2.2.2.2⟩

/-! ## Claim C9: FileWatcher.stop and pending debounce timers -/

/-- Claim C9 counterexample: stopping a running watcher with one pending
debounce timer leaves that timer pending (nothing in stop cancels it),
differing from the spec-modelled stop that discards it; the remaining
timer then fires and dispatches its payload after stop has returned. -/
theorem C9_counterexample :
    (FileWatcher_stop ⟨true, true, [(2, "evt")]⟩).pending = [(2, "evt")] ∧
    FileWatcher_stop ⟨true, true, [(2, "evt")]⟩ ≠ stop_spec ⟨true, true, [(2, "evt")]⟩ ∧
    debounceSim 2 [] (some (2, "evt")) = [(2, "evt")] := by
  refine ⟨rfl, ?_, rfl⟩
  simp [FileWatcher_stop, stop_spec]

/-- Claim C9 amended: stopping a running watcher unsubscribes from the
filesystem source and waits for the watch thread to terminate before
returning (observer stopped and joined, running flag cleared), but does
not cancel pending debounce timers: the pending set is returned untouched,
so their dispatches can still occur after stop returns. -/
theorem C9_amended : ∀ s : WatcherState, s.running = true →
    FileWatcher_stop s = ⟨false, false, s.pending⟩ := by
  intro s h
  simp [FileWatcher_stop, h]

/-- Claim C9 amended witness at a concrete running state. -/
theorem C9_amended_witness :
    FileWatcher_stop ⟨true, true, [(2, "evt")]⟩ = ⟨false, false, [(2, "evt")]⟩ :=
  C9_amended ⟨true, true, [(2, "evt")]⟩ rfl

/-! ## Claim C8: debounce coalescing -/

/-- A still-pending timer from time t0 survives a burst only until the
next arrival; by induction the last arrival's timer is the only one that
fires. -/
theorem debounceSim_burst (delay : ℚ) : ∀ (rest : List FsEvent) (t0 : ℚ) (p0 : String),
    burstFrom delay t0 rest = true →
    debounceSim delay rest (some (t0 + delay, p0)) =
      [(lastTime t0 rest + delay, lastPayload p0 rest)] := by
  intro rest
  induction rest with
  | nil => intro t0 p0 _; rfl
  | cons e rest ih =>
    intro t0 p0 h
    simp only [burstFrom, Bool.and_eq_true, decide_eq_true_eq] at h
    obtain ⟨⟨h1, h2⟩, h3⟩ := h
    have hstep : debounceSim delay (e :: rest) (some (t0 + delay, p0)) =
        if t0 + delay ≤ e.t then
          (t0 + delay, p0) :: debounceSim delay rest (some (e.t + delay, e.payload))
        else debounceSim delay rest (some (e.t + delay, e.payload)) := rfl
    rw [hstep, if_neg (not_le.mpr h2)]
    exact ih e.t e.payload h3

/-- Claim C8: for every event key, a burst of N at least 1 events whose
consecutive arrivals each fall within the debounce window produces exactly
one dispatch, scheduled one debounce delay after the last arrival and
carrying the payload of the last (most recent) event; every earlier
pending payload is cancelled and discarded. -/
theorem C8_debounce : ∀ (delay : ℚ) (e : FsEvent) (rest : List FsEvent),
    0 < delay → burstFrom delay e.t rest = true →
    debounceSim delay (e :: rest) none =
      [(lastTime e.t rest + delay, lastPayload e.payload rest)] := by
  intro delay e rest _ h
  have hstep : debounceSim delay (e :: rest) none =
      debounceSim delay rest (some (e.t + delay, e.payload)) := rfl
  rw [hstep]
  exact debounceSim_burst delay rest e.t e.payload h

/-- Claim C8 witness: three events at times 0, 1/2, 1 inside a window of
2 produce the single dispatch (3, p3). -/
theorem C8_debounce_witness :
    debounceSim 2 [⟨0, "p1"⟩, ⟨1/2, "p2"⟩, ⟨1, "p3"⟩] none = [(3, "p3")] := by
  have h := C8_debounce 2 ⟨0, "p1"⟩ [⟨1/2, "p2"⟩, ⟨1, "p3"⟩] (by norm_num)
    (by norm_num [burstFrom])
  rw [h]
  norm_num [lastTime, lastPayload]

/-! ## Claim C6: organize_file never raises and fails safe -/

/-- Claim C6: organize_file converts every outcome into a returned path
plus activity-log entries (the except branch makes it total toward its
caller): with no move_to template it returns the source path unchanged
with nothing logged (the file is not moved), and when directory creation
or the move fails it returns the source path and records a
file_organize_failed activity entry with error status. -/
theorem C6_organize_safe : ∀ (env : OrganizeEnv) (file_path : String)
    (cls : Classification),
    (cls.move_to = none → organize_file env file_path cls = (file_path, [])) ∧
    (∀ mv e, cls.move_to = some mv → env.mkdirResult = IOResult.err e →
      organize_file env file_path cls =
        (file_path, [⟨"file_organize_failed", file_path, "error"⟩])) ∧
    (∀ mv e, cls.move_to = some mv → env.mkdirResult = IOResult.ok →
      env.moveResult = IOResult.err e →
      organize_file env file_path cls =
        (file_path, [⟨"file_organize_failed", file_path, "error"⟩])) := by
  intro env file_path cls
  refine ⟨fun h => by simp [organize_file, h],
    fun mv e h1 h2 => by simp [organize_file, h1, h2],
    fun mv e h1 h2 h3 => by simp [organize_file, h1, h2, h3]⟩

/-! ## Conflict resolution lemmas and claims C3, C10 -/

/-- Concatenating the pathlib stem and suffix recovers the filename. -/
theorem pySplitExt_append (l : List Char) : (pySplitExt l).1 ++ (pySplitExt l).2 = l := by
  unfold pySplitExt
  cases rfindChar '.' l with
  | none => simp
  | some i =>
    by_cases hcond : 0 < i ∧ i < l.length - 1
    · simp [hcond]
    · simp [hcond]

/-- Concatenating the pathlib stem and suffix recovers the filename. -/
theorem pyStem_append_pySuffix (n : String) : pyStem n ++ pySuffix n = n := by
  obtain ⟨l⟩ := n
  show (⟨(pySplitExt l).1 ++ (pySplitExt l).2⟩ : String) = ⟨l⟩
  rw [pySplitExt_append]

/-- A counter-suffixed candidate is never the destination itself: its
filename is strictly longer. -/
theorem candidate_ne (dest : PyPath) (N : Nat) : candidate dest N ≠ dest := by
  intro h
  have hname : pyStem dest.name ++ "_" ++ toString N ++ pySuffix dest.name = dest.name :=
    congrArg PyPath.name h
  have hlen := congrArg String.length hname
  have hu : ("_" : String).length = 1 := rfl
  have hsplit : (pyStem dest.name).length + (pySuffix dest.name).length =
      dest.name.length := by
    rw [← String.length_append, pyStem_append_pySuffix]
  simp only [String.length_append, hu] at hlen
  omega

/-- When every candidate from the current counter through 1000 collides,
the loop returns the original destination. -/
theorem conflictLoop_all_exist (fs : PyPath → Bool) (dest : PyPath) :
    ∀ fuel counter, counter + fuel = 1001 →
    (∀ N, counter ≤ N → N ≤ 1000 → fs (candidate dest N) = true) →
    conflictLoop fs dest counter fuel = dest := by
  intro fuel
  induction fuel with
  | zero => intro counter _ _; rfl
  | succ f ih =>
    intro counter hsum hall
    have hc : fs (candidate dest counter) = true := hall counter le_rfl (by omega)
    rw [conflictLoop, hc, if_neg (by simp : ¬(true = false))]
    by_cases h1 : 1000 < counter + 1
    · rw [if_pos h1]
    · rw [if_neg h1]
      exact ih (counter + 1) (by omega) (fun N hN h2 => hall N (by omega) h2)

/-- The loop returns the candidate of the least free counter in range. -/
theorem conflictLoop_found (fs : PyPath → Bool) (dest : PyPath) :
    ∀ fuel counter N, counter + fuel = 1001 →
    counter ≤ N → N ≤ 1000 → fs (candidate dest N) = false →
    (∀ k, counter ≤ k → k < N → fs (candidate dest k) = true) →
    conflictLoop fs dest counter fuel = candidate dest N := by
  intro fuel
  induction fuel with
  | zero => intro counter N hsum hcN hN _ _; omega
  | succ f ih =>
    intro counter N hsum hcN hN hfree hmin
    rw [conflictLoop]
    by_cases he : counter = N
    · subst he; rw [hfree, if_pos rfl]
    · have hlt : counter < N := lt_of_le_of_ne hcN he
      have hcur : fs (candidate dest counter) = true := hmin counter le_rfl hlt
      have hbound : ¬ (1000 < counter + 1) := by omega
      rw [hcur, if_neg (by simp : ¬(true = false)), if_neg hbound]
      exact ih (counter + 1) N (by omega) (by omega) hN hfree
        (fun k hk hkN => hmin k (by omega) hkN)

/-- Whatever the filesystem looks like, the loop returns either the
destination or a candidate with counter between the entry value and
1000. -/
theorem conflictLoop_shape (fs : PyPath → Bool) (dest : PyPath) :
    ∀ fuel counter, counter ≤ 1000 →
    conflictLoop fs dest counter fuel = dest ∨
    ∃ N, counter ≤ N ∧ N ≤ 1000 ∧ conflictLoop fs dest counter fuel = candidate dest N := by
  intro fuel
  induction fuel with
  | zero => intro counter _; left; rfl
  | succ f ih =>
    intro counter hc
    rw [conflictLoop]
    by_cases hfree : fs (candidate dest counter) = false
    · right; exact ⟨counter, le_rfl, hc, by rw [hfree, if_pos rfl]⟩
    · rw [Bool.not_eq_false] at hfree
      rw [hfree, if_neg (by simp : ¬(true = false))]
      by_cases h1 : 1000 < counter + 1
      · left; rw [if_pos h1]
      · rw [if_neg h1]
        rcases ih (counter + 1) (by omega) with h | ⟨N, hN1, hN2, hN3⟩
        · left; exact h
        · right; exact ⟨N, by omega, hN2, hN3⟩

/-- Claim C3: conflict resolution returns a non-existing destination
unchanged; when the destination exists it returns the candidate with the
smallest free counter N between 1 and 1000 (never the destination itself),
and when all 1000 candidates collide it returns the original destination
unchanged rather than overwriting anything. -/
theorem C3_conflict_resolution : ∀ (fs : PyPath → Bool) (dest : PyPath),
    (fs dest = false → _resolve_filename_conflict fs dest = dest) ∧
    (∀ N : Nat, fs dest = true → 1 ≤ N → N ≤ 1000 →
      fs (candidate dest N) = false →
      (∀ k, 1 ≤ k → k < N → fs (candidate dest k) = true) →
      _resolve_filename_conflict fs dest = candidate dest N ∧
      _resolve_filename_conflict fs dest ≠ dest) ∧
    (fs dest = true → (∀ k, 1 ≤ k → k ≤ 1000 → fs (candidate dest k) = true) →
      _resolve_filename_conflict fs dest = dest) := by
  intro fs dest
  refine ⟨fun h => by simp [_resolve_filename_conflict, h], ?_, ?_⟩
  · intro N hex h1 h1000 hfree hmin
    have hres : _resolve_filename_conflict fs dest = conflictLoop fs dest 1 1000 := by
      simp [_resolve_filename_conflict, hex]
    have hfound := conflictLoop_found fs dest 1000 1 N (by omega) h1 h1000 hfree hmin
    rw [hres, hfound]
    exact ⟨rfl, candidate_ne dest N⟩
  · intro hex hall
    have hres : _resolve_filename_conflict fs dest = conflictLoop fs dest 1 1000 := by
      simp [_resolve_filename_conflict, hex]
    rw [hres]
    exact conflictLoop_all_exist fs dest 1000 1 (by omega) (fun N hN h2 => hall N hN h2)

/-- Claim C3 witness: with the destination and its first candidate
occupied, resolution returns the second candidate. -/
theorem C3_conflict_resolution_witness :
    _resolve_filename_conflict
        (fun p => decide (p = ⟨"/base", "report.pdf"⟩ ∨ p = candidate ⟨"/base", "report.pdf"⟩ 1))
        ⟨"/base", "report.pdf"⟩ =
      candidate ⟨"/base", "report.pdf"⟩ 2 ∧
    _resolve_filename_conflict
        (fun p => decide (p = ⟨"/base", "report.pdf"⟩ ∨ p = candidate ⟨"/base", "report.pdf"⟩ 1))
        ⟨"/base", "report.pdf"⟩ ≠ ⟨"/base", "report.pdf"⟩ := by
  apply (C3_conflict_resolution _ _).2.1 2 (by decide) (by omega) (by omega) (by decide)
  intro k h1 h2
  have hk : k = 1 := by omega
  subst hk
  decide

/-- Claim C10 counterexample: resolving a conflict for the destination
name a. (which pathlib deems extensionless) yields a._1, whose pathlib
suffix is ._1 - the final extension of the returned path differs from the
input's, and its pathlib stem is not the input's stem with _1 appended. -/
theorem C10_counterexample :
    (_resolve_filename_conflict (fun p => decide (p = ⟨"/d", "a."⟩)) ⟨"/d", "a."⟩).name
      = "a._1" ∧
    pySuffix "a." = "" ∧ pySuffix "a._1" = "._1" ∧ pyStem "a._1" = "a" := by
  decide

/-- Claim C10 amended: the resolved path always lies in the same parent
directory as the input, and its filename is either exactly the input's
filename or the input's pathlib stem followed by an underscore and a
counter N with 1 at least and at most 1000, followed by the input's
pathlib suffix; this preserves the final extension except in the
degenerate case of a filename ending in a dot, where the appended counter
turns the trailing dot into a new extension. -/
theorem C10_amended : ∀ (fs : PyPath → Bool) (dest : PyPath),
    (_resolve_filename_conflict fs dest).parent = dest.parent ∧
    (_resolve_filename_conflict fs dest = dest ∨
      ∃ N, 1 ≤ N ∧ N ≤ 1000 ∧ _resolve_filename_conflict fs dest = candidate dest N) := by
  intro fs dest
  have hshape : _resolve_filename_conflict fs dest = dest ∨
      ∃ N, 1 ≤ N ∧ N ≤ 1000 ∧ _resolve_filename_conflict fs dest = candidate dest N := by
    by_cases h : fs dest = false
    · left; simp [_resolve_filename_conflict, h]
    · rw [Bool.not_eq_false] at h
      have hres : _resolve_filename_conflict fs dest = conflictLoop fs dest 1 1000 := by
        simp [_resolve_filename_conflict, h]
      rw [hres]
      exact conflictLoop_shape fs dest 1000 1 (by omega)
  refine ⟨?_, hshape⟩
  rcases hshape with h | ⟨N, _, _, h⟩
  · rw [h]
  · rw [h]; rfl

/-! ## Claim C1: priority ordering of rule application -/

/-- In a priority-sorted rule list containing an active matching rule A,
the scan returns the actions of some active matching rule R that appears
no later than A, hence with priority at most A's. -/
theorem applyRulesLoop_first (search : String → String → Bool) (file : FileInfo) :
    ∀ l : List Rule, List.Sorted rulePriorityLE l →
    ∀ A ∈ l, A.active = true → _rule_matches search file A = true →
    ∃ R, R ∈ l ∧ R.active = true ∧ _rule_matches search file R = true ∧
      rulePriorityLE R A ∧
      applyRulesLoop search file l = some (_apply_rule_actions R) := by
  intro l
  induction l with
  | nil => intro _ A hA; simp at hA
  | cons x rest ih =>
    intro hs A hA hAact hAm
    rw [List.sorted_cons] at hs
    obtain ⟨hx, hrest⟩ := hs
    by_cases hxact : x.active = true
    · by_cases hxm : _rule_matches search file x = true
      · refine ⟨x, List.mem_cons_self x rest, hxact, hxm, ?_, ?_⟩
        · rcases List.mem_cons.mp hA with h | h
          · subst h; exact le_refl _
          · exact hx A h
        · simp [applyRulesLoop, hxact, hxm]
      · have hAr : A ∈ rest := by
          rcases List.mem_cons.mp hA with h | h
          · subst h; exact absurd hAm hxm
          · exact h
        obtain ⟨R, hR, h1, h2, h3, h4⟩ := ih hrest A hAr hAact hAm
        refine ⟨R, List.mem_cons_of_mem x hR, h1, h2, h3, ?_⟩
        simp [applyRulesLoop, hxact, hxm, h4]
    · have hAr : A ∈ rest := by
        rcases List.mem_cons.mp hA with h | h
        · subst h; exact absurd hAact hxact
        · exact h
      obtain ⟨R, hR, h1, h2, h3, h4⟩ := ih hrest A hAr hAact hAm
      refine ⟨R, List.mem_cons_of_mem x hR, h1, h2, h3, ?_⟩
      rw [Bool.not_eq_true] at hxact
      simp [applyRulesLoop, hxact, h4]

/-- Rules fixture: an active catch-all rule of highest priority. -/
def cRuleC : Rule := { name := "catchall", priority := 1 }

/-- Rules fixture: rule A. -/
def cRuleA : Rule := { name := "A", priority := 5 }

/-- Rules fixture: rule B, lower priority than A. -/
def cRuleB : Rule := { name := "B", priority := 10 }

/-- File fixture for the priority claims. -/
def cFile : FileInfo := ⟨"f.txt", "/w/f.txt", 10, "text/plain"⟩

/-- Claim C1 counterexample: rules A and B are both active, both match the
file (their condition sets are empty) and A has strictly smaller priority
than B, yet classify_file does not report rule_matched A, because a third
active matching rule of even smaller priority is tried first. -/
theorem C1_counterexample :
    cRuleA.active = true ∧
    _rule_matches (fun _ _ => false) cFile cRuleA = true ∧
    cRuleB.active = true ∧
    _rule_matches (fun _ _ => false) cFile cRuleB = true ∧
    cRuleA.priority < cRuleB.priority ∧
    (classify_file (fun _ _ => false) [cRuleC, cRuleA, cRuleB] cFile).rule_matched ≠
      some cRuleA.name := by
  decide

/-- Claim C1 amended: if active rules A and B both match the file and A
has strictly smaller priority, classify_file reports the first active
matching rule R of the stable priority-ascending order (equal priorities
keep source order, inactive rules are skipped, evaluation stops at the
first match), with confidence 0.9; R's priority is at most A's and
strictly below B's, so in particular the strictly lower-priority rule B is
never the one reported, and when A is that first rule the report is
rule_matched A. -/
theorem C1_amended : ∀ (search : String → String → Bool) (rules : List Rule)
    (file : FileInfo) (A B : Rule),
    A ∈ rules → B ∈ rules →
    A.active = true → _rule_matches search file A = true →
    B.active = true → _rule_matches search file B = true →
    A.priority < B.priority →
    ∃ R, R ∈ rules ∧ R.active = true ∧ _rule_matches search file R = true ∧
      R.priority ≤ A.priority ∧ R.priority < B.priority ∧
      _apply_rules search file rules = some (_apply_rule_actions R) ∧
      (classify_file search rules file).rule_matched = some R.name ∧
      (classify_file search rules file).confidence = 9/10 := by
  intro search rules file A B hA hB hAact hAm hBact hBm hAB
  have hsorted : List.Sorted rulePriorityLE (sortRules rules) :=
    List.sorted_insertionSort rulePriorityLE rules
  have hAmem : A ∈ sortRules rules := by
    unfold sortRules
    exact (List.mem_insertionSort rulePriorityLE).mpr hA
  obtain ⟨R, hRmem, hRact, hRm, hRA, hloop⟩ :=
    applyRulesLoop_first search file (sortRules rules) hsorted A hAmem hAact hAm
  have hRrules : R ∈ rules := by
    unfold sortRules at hRmem
    exact (List.mem_insertionSort rulePriorityLE).mp hRmem
  have happ : _apply_rules search file rules = some (_apply_rule_actions R) := hloop
  refine ⟨R, hRrules, hRact, hRm, hRA, lt_of_le_of_lt hRA hAB, happ, ?_, ?_⟩ <;>
    simp [classify_file, happ, _apply_rule_actions]

/-- Claim C1 amended witness: with rules A and B only, A is reported with
confidence 0.9. -/
theorem C1_amended_witness :
    (classify_file (fun _ _ => false) [cRuleA, cRuleB] cFile).confidence = 9/10 := by
  obtain ⟨R, -, -, -, -, -, -, -, h⟩ :=
    C1_amended (fun _ _ => false) [cRuleA, cRuleB] cFile cRuleA cRuleB
      (by decide) (by decide) (by decide) (by decide) (by decide) (by decide) (by decide)
  exact h

/-! ## Claim C2: rule matching semantics -/

/-- An optional condition passes exactly when every present value passes
its test. -/
theorem checkOpt_eq_true {α : Type} (o : Option α) (f : α → Bool) :
    checkOpt o f = true ↔ ∀ a, o = some a → f a = true := by
  cases o <;> simp [checkOpt]

/-- Modelled from the claim (the spec wording: condition semantics all
case-insensitive where textual): rule matching in which the MIME
membership and MIME prefix tests compare case-insensitively and a bare
prefix test is used.  To be compared with _rule_matches, which the source
implements case-sensitively. -/
def rule_matches_spec_ci (search : String → String → Bool) (file : FileInfo)
    (rule : Rule) : Bool :=
  checkOpt rule.when'.filename_regex (fun pat => search pat file.name) &&
  checkOpt rule.when'.mime_in
    (fun l => l.any (fun m => pyLower m.data == pyLower file.mime.data)) &&
  checkOpt rule.when'.mime_startswith
    (fun p => (pyLower p.data).isPrefixOf (pyLower file.mime.data)) &&
  checkOpt rule.when'.path_regex (fun pat => search pat file.path) &&
  checkOpt rule.when'.size_lt_bytes (fun b => decide (file.size < b)) &&
  checkOpt rule.when'.size_gt_bytes (fun b => decide (b < file.size))

/-- Rule fixture whose only condition is a MIME membership list in upper
case. -/
def ciRule : Rule := { name := "ci", when' := { mime_in := some ["APPLICATION/PDF"] } }

/-- File fixture with a lower-case MIME type. -/
def ciFile : FileInfo := ⟨"x.pdf", "/w/x.pdf", 10, "application/pdf"⟩

/-- Claim C2 counterexample: under the claimed case-insensitive semantics
the rule's single present condition holds for the file, yet _rule_matches
rejects it - the source compares MIME types case-sensitively. -/
theorem C2_counterexample :
    _rule_matches (fun _ _ => false) ciFile ciRule = false ∧
    rule_matches_spec_ci (fun _ _ => false) ciFile ciRule = true := by
  decide

/-- Claim C2 amended: a rule matches exactly when every present condition
of its when mapping holds, where filename_regex and path_regex are regex
searches over the filename and full path (the engine is called with the
IGNORECASE flag; search, not full match), mime_in is case-sensitive exact
membership of the resolved MIME type, mime_startswith requires a present
(nonempty) MIME type with the given case-sensitive prefix, and the size
bounds are strict; a rule with zero present conditions matches every
file. -/
theorem C2_amended : ∀ (search : String → String → Bool) (file : FileInfo) (rule : Rule),
    (_rule_matches search file rule = true ↔
      ((∀ pat, rule.when'.filename_regex = some pat → search pat file.name = true) ∧
       (∀ l, rule.when'.mime_in = some l → file.mime ∈ l) ∧
       (∀ p, rule.when'.mime_startswith = some p →
         file.mime ≠ "" ∧ p.data <+: file.mime.data) ∧
       (∀ pat, rule.when'.path_regex = some pat → search pat file.path = true) ∧
       (∀ b, rule.when'.size_lt_bytes = some b → file.size < b) ∧
       (∀ b, rule.when'.size_gt_bytes = some b → b < file.size))) ∧
    (rule.when' = {} → _rule_matches search file rule = true) := by
  intro search file rule
  constructor
  · unfold _rule_matches
    simp only [Bool.and_eq_true, checkOpt_eq_true, decide_eq_true_eq,
      List.isPrefixOf_iff_prefix]
    constructor
    · rintro ⟨⟨⟨⟨⟨h1, h2⟩, h3⟩, h4⟩, h5⟩, h6⟩
      exact ⟨h1, h2, fun p hp => (h3 p hp).imp_left fun h => h, h4, h5, h6⟩
    · rintro ⟨h1, h2, h3, h4, h5, h6⟩
      exact ⟨⟨⟨⟨⟨h1, h2⟩, fun p hp => h3 p hp⟩, h4⟩, h5⟩, h6⟩
  · intro hw
    unfold _rule_matches
    rw [hw]
    rfl

/-- A literal-substring regex engine standing in for re.search on plain
keyword patterns, used for concrete witnesses. -/
def subSearch : String → String → Bool := fun pat s => decide (pat.data <:+: s.data)

/-- Conditions fixture: filename regex, MIME membership and a size bound. -/
def invWhen : RuleWhen :=
  { filename_regex := some "invoice"
    mime_in := some ["application/pdf"]
    size_lt_bytes := some 2048 }

/-- Rule fixture using invWhen. -/
def invRule : Rule := { name := "inv", when' := invWhen }

/-- File fixture matching every condition of invRule. -/
def invFile : FileInfo := ⟨"invoice_jan.pdf", "/w/invoice_jan.pdf", 1024, "application/pdf"⟩

/-- Claim C2 amended witness: a rule with filename regex, MIME membership
and size conditions matches a concrete file satisfying all three. -/
theorem C2_amended_witness : _rule_matches subSearch invFile invRule = true := by
  apply (C2_amended subSearch invFile invRule).1.mpr
  refine ⟨?_, ?_, ?_, ?_, ?_, ?_⟩ <;> intro a ha <;> cases ha <;> decide

/-! ## Claim C5: fallback classification -/

/-- Claim C5: when no rule matches, classify_file takes the label and tags
of the fallback cascade with confidence 0.5 and leaves rule_matched unset;
the cascade is tried in the fixed order finance keyword, image, video,
audio MIME prefix, document extension, code extension, archive extension,
then other with tag unclassified, first match winning; in particular
photo.png with MIME image/png and no rules yields label media, tags image
and auto-classified, confidence 0.5. -/
theorem C5_fallback :
    (∀ (search : String → String → Bool) (rules : List Rule) (file : FileInfo),
      _apply_rules search file rules = none →
      (classify_file search rules file).label = (_fallback_classification file).label ∧
      (classify_file search rules file).tags = (_fallback_classification file).tags ∧
      (classify_file search rules file).confidence = 1/2 ∧
      (classify_file search rules file).rule_matched = none) ∧
    (∀ file : FileInfo, financeHit file = true →
      _fallback_classification file = ⟨"finance", ["auto-classified"]⟩) ∧
    (∀ file : FileInfo, financeHit file = false → mimeStarts file.mime "image/" = true →
      _fallback_classification file = ⟨"media", ["image", "auto-classified"]⟩) ∧
    (∀ file : FileInfo, financeHit file = false → mimeStarts file.mime "image/" = false →
      mimeStarts file.mime "video/" = true →
      _fallback_classification file = ⟨"media", ["video", "auto-classified"]⟩) ∧
    (∀ file : FileInfo, financeHit file = false → mimeStarts file.mime "image/" = false →
      mimeStarts file.mime "video/" = false → mimeStarts file.mime "audio/" = true →
      _fallback_classification file = ⟨"media", ["audio", "auto-classified"]⟩) ∧
    (∀ file : FileInfo, financeHit file = false → mimeStarts file.mime "image/" = false →
      mimeStarts file.mime "video/" = false → mimeStarts file.mime "audio/" = false →
      pyLowerStr (pySuffix file.name) ∈ document_types →
      _fallback_classification file = ⟨"documents", ["document", "auto-classified"]⟩) ∧
    (∀ file : FileInfo, financeHit file = false → mimeStarts file.mime "image/" = false →
      mimeStarts file.mime "video/" = false → mimeStarts file.mime "audio/" = false →
      pyLowerStr (pySuffix file.name) ∉ document_types →
      pyLowerStr (pySuffix file.name) ∈ code_extensions →
      _fallback_classification file = ⟨"code", ["source-code", "auto-classified"]⟩) ∧
    (∀ file : FileInfo, financeHit file = false → mimeStarts file.mime "image/" = false →
      mimeStarts file.mime "video/" = false → mimeStarts file.mime "audio/" = false →
      pyLowerStr (pySuffix file.name) ∉ document_types →
      pyLowerStr (pySuffix file.name) ∉ code_extensions →
      pyLowerStr (pySuffix file.name) ∈ archive_extensions →
      _fallback_classification file = ⟨"archives", ["archive", "auto-classified"]⟩) ∧
    (∀ file : FileInfo, financeHit file = false → mimeStarts file.mime "image/" = false →
      mimeStarts file.mime "video/" = false → mimeStarts file.mime "audio/" = false →
      pyLowerStr (pySuffix file.name) ∉ document_types →
      pyLowerStr (pySuffix file.name) ∉ code_extensions →
      pyLowerStr (pySuffix file.name) ∉ archive_extensions →
      _fallback_classification file = ⟨"other", ["unclassified"]⟩) ∧
    (∀ (search : String → String → Bool) (path : String) (size : Int),
      classify_file search [] ⟨"photo.png", path, size, "image/png"⟩ =
        { label := "media", tags := ["image", "auto-classified"],
          mime_type := "image/png", confidence := 1/2,
          metadata := ⟨"photo.png", ".png", size⟩,
          rule_matched := none, move_to := none, rename_to := none }) := by
  refine ⟨?_, ?_, ?_, ?_, ?_, ?_, ?_, ?_, ?_, ?_⟩
  · intro search rules file h
    refine ⟨?_, ?_, ?_, ?_⟩ <;> simp [classify_file, h]
  · intro file h
    simp [_fallback_classification, h]
  · intro file h1 h2
    simp [_fallback_classification, h1, h2]
  · intro file h1 h2 h3
    simp [_fallback_classification, h1, h2, h3]
  · intro file h1 h2 h3 h4
    simp [_fallback_classification, h1, h2, h3, h4]
  · intro file h1 h2 h3 h4 h5
    simp [_fallback_classification, h1, h2, h3, h4, h5]
  · intro file h1 h2 h3 h4 h5 h6
    simp [_fallback_classification, h1, h2, h3, h4, h5, h6]
  · intro file h1 h2 h3 h4 h5 h6 h7
    simp [_fallback_classification, h1, h2, h3, h4, h5, h6, h7]
  · intro file h1 h2 h3 h4 h5 h6 h7
    simp [_fallback_classification, h1, h2, h3, h4, h5, h6, h7]
  · intro search path size
    rfl

/-- Claim C5 witness: a finance-keyword filename falls back to finance,
and the photo.png scenario is reproduced at a concrete path and size. -/
theorem C5_fallback_witness :
    _fallback_classification ⟨"invoice_jan.pdf", "/w/invoice_jan.pdf", 5, "application/pdf"⟩
      = ⟨"finance", ["auto-classified"]⟩ ∧
    (classify_file (fun _ _ => false) [] ⟨"photo.png", "/w/photo.png", 1024, "image/png"⟩).tags
      = ["image", "auto-classified"] := by
  constructor
  · exact C5_fallback.2.1 ⟨"invoice_jan.pdf", "/w/invoice_jan.pdf", 5, "application/pdf"⟩
      (by decide)
  · rw [C5_fallback.2.2.2.2.2.2.2.2.2 (fun _ _ => false) "/w/photo.png" 1024]

/-! ## Claim C4: template expansion lemmas -/

/-- Scanning the empty string is a no-op for any fuel. -/
theorem replaceAllF_nil (pat repl : List Char) (fuel : Nat) :
    replaceAllF pat repl fuel [] = [] := by
  cases fuel <;> rfl

/-- The fuel is irrelevant as long as it covers the string length. -/
theorem replaceAllF_congr (pat repl : List Char) :
    ∀ f1 f2 s, s.length ≤ f1 → s.length ≤ f2 →
    replaceAllF pat repl f1 s = replaceAllF pat repl f2 s := by
  intro f1
  induction f1 with
  | zero =>
    intro f2 s h1 _
    have hs : s = [] := List.length_eq_zero.mp (Nat.le_zero.mp h1)
    subst hs
    simp [replaceAllF_nil]
  | succ f ih =>
    intro f2 s h1 h2
    cases s with
    | nil => simp [replaceAllF_nil]
    | cons c rest =>
      cases f2 with
      | zero => simp at h2
      | succ g =>
        by_cases hc : (!pat.isEmpty && pat.isPrefixOf (c :: rest)) = true
        · have hpat : 1 ≤ pat.length := by
            cases pat with
            | nil => simp at hc
            | cons p ps => simp
          rw [replaceAllF, replaceAllF, if_pos hc, if_pos hc]
          congr 1
          apply ih
          · simp only [List.length_drop]
            simp only [List.length_cons] at h1 ⊢
            omega
          · simp only [List.length_drop]
            simp only [List.length_cons] at h2 ⊢
            omega
        · rw [replaceAllF, replaceAllF, if_neg hc, if_neg hc]
          congr 1
          apply ih
          · simp only [List.length_cons] at h1; omega
          · simp only [List.length_cons] at h2; omega

/-- A pattern with no occurrence in the string leaves it unchanged,
whatever the fuel. -/
theorem replaceAllF_no_occur (pat repl : List Char) :
    ∀ fuel s, ¬ pat <:+: s → replaceAllF pat repl fuel s = s := by
  intro fuel
  induction fuel with
  | zero => intro s _; cases s <;> rfl
  | succ f ih =>
    intro s h
    cases s with
    | nil => rfl
    | cons c rest =>
      have hpre : ¬ ((!pat.isEmpty && pat.isPrefixOf (c :: rest)) = true) := by
        intro hc
        rw [Bool.and_eq_true] at hc
        exact h (List.IsPrefix.isInfix (List.isPrefixOf_iff_prefix.mp hc.2))
      rw [replaceAllF, if_neg hpre]
      have hrest : ¬ pat <:+: rest := fun hinf => h (List.infix_cons hinf)
      rw [ih rest hrest]

/-- Python replace with a pattern that does not occur is the identity. -/
theorem replaceAll_no_occur {pat repl s : List Char} (h : ¬ pat <:+: s) :
    replaceAll pat repl s = s :=
  replaceAllF_no_occur pat repl s.length s h

/-- A pattern starting with an open brace cannot occur in a brace-free
string. -/
theorem no_occur_of_no_brace {pat u : List Char} (hhead : pat.head? = some '{')
    (hu : '{' ∉ u) : ¬ pat <:+: u := by
  intro hinf
  cases pat with
  | nil => simp at hhead
  | cons p0 pt =>
    simp only [List.head?_cons, Option.some.injEq] at hhead
    subst hhead
    exact hu (hinf.subset (List.mem_cons_self _ _))

/-- Scanning past a brace-free prefix never matches a brace-headed
pattern. -/
theorem replaceAllF_skip (pat repl : List Char) (hhead : pat.head? = some '{') :
    ∀ l fuel s, '{' ∉ l →
    replaceAllF pat repl (l.length + fuel) (l ++ s) = l ++ replaceAllF pat repl fuel s := by
  intro l
  induction l with
  | nil => intro fuel s _; simp
  | cons c l' ih =>
    intro fuel s hmem
    have hlen : (c :: l').length + fuel = (l'.length + fuel) + 1 := by
      simp [List.length_cons]; omega
    rw [hlen]
    have hcne : ¬ ((!pat.isEmpty && pat.isPrefixOf (c :: (l' ++ s))) = true) := by
      intro hc
      rw [Bool.and_eq_true] at hc
      obtain ⟨t, ht⟩ := List.isPrefixOf_iff_prefix.mp hc.2
      cases pat with
      | nil => simp at hhead
      | cons p0 pt =>
        simp only [List.head?_cons, Option.some.injEq] at hhead
        subst hhead
        have hc0 : c = '{' := by
          have := congrArg (fun u => u.head?) ht
          simpa using this.symm
        exact hmem (hc0 ▸ List.mem_cons_self c l')
    show replaceAllF pat repl ((l'.length + fuel) + 1) (c :: (l' ++ s)) = _
    rw [replaceAllF, if_neg hcne, ih fuel s (fun h => hmem (List.mem_cons_of_mem c h))]
    rfl

/-- Scanning at an occurrence of the pattern itself replaces it and
continues after it. -/
theorem replaceAllF_head (pat repl : List Char) (hne : pat ≠ []) :
    ∀ fuel s, replaceAllF pat repl (fuel + 1) (pat ++ s) = repl ++ replaceAllF pat repl fuel s := by
  intro fuel s
  cases pat with
  | nil => exact absurd rfl hne
  | cons p0 pt =>
    have hc : (!(p0 :: pt).isEmpty && (p0 :: pt).isPrefixOf ((p0 :: pt) ++ s)) = true := by
      rw [Bool.and_eq_true]
      exact ⟨by simp, List.isPrefixOf_iff_prefix.mpr ⟨s, rfl⟩⟩
    show replaceAllF (p0 :: pt) repl (fuel + 1) (p0 :: (pt ++ s)) = _
    rw [replaceAllF]
    rw [show (p0 :: (pt ++ s)) = (p0 :: pt) ++ s from rfl, if_pos hc]
    congr 1
    rw [show ((p0 :: pt) ++ s) = p0 :: (pt ++ s) from rfl]
    rw [List.length_cons, List.drop_succ_cons, List.drop_left]

/-- Canonical-fuel version of replaceAllF_skip. -/
theorem replaceAll_skip {pat repl l s : List Char} (hhead : pat.head? = some '{')
    (hl : '{' ∉ l) : replaceAll pat repl (l ++ s) = l ++ replaceAll pat repl s := by
  unfold replaceAll
  rw [List.length_append]
  exact replaceAllF_skip pat repl hhead l s.length s hl

/-- Canonical-fuel version of replaceAllF_head. -/
theorem replaceAll_head {pat repl s : List Char} (hne : pat ≠ []) :
    replaceAll pat repl (pat ++ s) = repl ++ replaceAll pat repl s := by
  unfold replaceAll
  rw [List.length_append]
  have hlen : pat.length + s.length = (pat.length - 1 + s.length) + 1 := by
    cases pat with
    | nil => exact absurd rfl hne
    | cons p0 pt => simp [List.length_cons]; omega
  rw [hlen, replaceAllF_head pat repl hne]
  congr 1
  exact replaceAllF_congr pat repl _ _ s (by omega) le_rfl

/-- One replace pass over a template consisting of brace-free literals
around two occurrences of a brace-headed pattern substitutes both
occurrences and nothing else. -/
theorem replaceAll_template (pat vp l0 l1 l2 : List Char) (hhead : pat.head? = some '{')
    (h0 : '{' ∉ l0) (h1 : '{' ∉ l1) (h2 : '{' ∉ l2) :
    replaceAll pat vp (l0 ++ (pat ++ (l1 ++ (pat ++ l2)))) =
      l0 ++ (vp ++ (l1 ++ (vp ++ l2))) := by
  have hne : pat ≠ [] := by
    cases pat
    · simp at hhead
    · simp
  rw [replaceAll_skip hhead h0, replaceAll_head hne, replaceAll_skip hhead h1,
    replaceAll_head hne, replaceAll_no_occur (no_occur_of_no_brace hhead h2)]

/-- Substitution passes whose patterns never occur in the string leave it
unchanged. -/
theorem foldl_replace_id (subs : List (List Char × List Char)) :
    ∀ t : List Char, (∀ e ∈ subs, ¬ e.1 <:+: t) →
    subs.foldl (fun t pr => replaceAll pr.1 pr.2 t) t = t := by
  induction subs with
  | nil => intro t _; rfl
  | cons e rest ih =>
    intro t h
    rw [List.foldl_cons, replaceAll_no_occur (h e (List.mem_cons_self e rest))]
    exact ih t (fun e' he' => h e' (List.mem_cons_of_mem e he'))

/-- Substitution passes with brace-headed patterns leave a brace-free
string unchanged. -/
theorem foldl_replace_id_of_no_brace (subs : List (List Char × List Char))
    (hh : ∀ e ∈ subs, e.1.head? = some '{') (u : List Char) (hu : '{' ∉ u) :
    subs.foldl (fun t pr => replaceAll pr.1 pr.2 t) u = u :=
  foldl_replace_id subs u (fun e he => no_occur_of_no_brace (hh e he) hu)

/-- Running a substitution list over a template built from brace-free
literals around two occurrences of one of its patterns replaces exactly
those occurrences with that pattern's value, provided the patterns are
distinct, brace-headed, the value is brace-free, and no other pattern
occurs in the template. -/
theorem foldl_replace_template :
    ∀ (subs : List (List Char × List Char)) (p vp l0 l1 l2 : List Char),
    (∀ e ∈ subs, e.1.head? = some '{') →
    (subs.map Prod.fst).Nodup →
    (p, vp) ∈ subs →
    '{' ∉ l0 → '{' ∉ l1 → '{' ∉ l2 → '{' ∉ vp →
    (∀ e ∈ subs, e.1 ≠ p → ¬ e.1 <:+: (l0 ++ (p ++ (l1 ++ (p ++ l2))))) →
    subs.foldl (fun t pr => replaceAll pr.1 pr.2 t) (l0 ++ (p ++ (l1 ++ (p ++ l2)))) =
      l0 ++ (vp ++ (l1 ++ (vp ++ l2))) := by
  intro subs
  induction subs with
  | nil =>
    intro p vp l0 l1 l2 _ _ hmem
    simp at hmem
  | cons e rest ih =>
    intro p vp l0 l1 l2 hheads hnodup hmem h0 h1 h2 hvp hother
    rw [List.map_cons, List.nodup_cons] at hnodup
    rcases List.mem_cons.mp hmem with heq | hmem'
    · have he : e = (p, vp) := heq.symm
      subst he
      rw [List.foldl_cons,
        replaceAll_template p vp l0 l1 l2 (hheads _ (List.mem_cons_self _ _)) h0 h1 h2]
      apply foldl_replace_id_of_no_brace rest
        (fun e' he' => hheads e' (List.mem_cons_of_mem _ he'))
      intro hin
      rcases List.mem_append.mp hin with h | h
      · exact h0 h
      rcases List.mem_append.mp h with h | h
      · exact hvp h
      rcases List.mem_append.mp h with h | h
      · exact h1 h
      rcases List.mem_append.mp h with h | h
      · exact hvp h
      · exact h2 h
    · have hne : e.1 ≠ p := by
        intro hep
        exact hnodup.1 (hep ▸ List.mem_map.mpr ⟨(p, vp), hmem', rfl⟩)
      rw [List.foldl_cons,
        replaceAll_no_occur (hother e (List.mem_cons_self e rest) hne)]
      exact ih p vp l0 l1 l2 (fun e' he' => hheads e' (List.mem_cons_of_mem e he'))
        hnodup.2 hmem' h0 h1 h2 hvp
        (fun e' he' hne' => hother e' (List.mem_cons_of_mem e he') hne')

/-- Every pattern of the substitution list opens with a brace. -/
theorem substitutions_heads (now : PyDateTime) (srcName home : String) :
    ∀ e ∈ substitutions now srcName home, e.1.head? = some '{' := by
  intro e he
  simp only [substitutions, List.mem_cons, List.not_mem_nil, or_false] at he
  rcases he with rfl | rfl | rfl | rfl | rfl | rfl | rfl | rfl | rfl | rfl <;> rfl

/-- The ten placeholder patterns are pairwise distinct. -/
theorem substitutions_nodup (now : PyDateTime) (srcName home : String) :
    ((substitutions now srcName home).map Prod.fst).Nodup := by
  show ([phYYYY, phMM, phDD, phHH, phmm, phss,
    phBASENAME, phSTEM, phEXT, phHOME] : List (List Char)).Nodup
  decide

/-- A fixed clock value for concrete template scenarios. -/
def sampleNow : PyDateTime := ⟨2024, 1, 2, 3, 4, 5⟩

/-- Claim C4: template expansion replaces every occurrence of each
recognized placeholder by literal substring substitution (shown for a
template holding two occurrences of any one placeholder amid brace-free
literal text, with the usual proviso that the other placeholders do not
occur); any text in which no recognized placeholder occurs - in
particular unknown double-brace placeholders - is left verbatim, and the
function is total, so nothing is raised; and the EXT placeholder is
replaced by only the final suffix of the source filename: .gz for
archive.tar.gz, not .tar.gz. -/
theorem C4_template_expansion :
    (∀ (now : PyDateTime) (srcName home : String) (p vp l0 l1 l2 : List Char),
      (p, vp) ∈ substitutions now srcName home →
      '{' ∉ l0 → '{' ∉ l1 → '{' ∉ l2 → '{' ∉ vp →
      (∀ e ∈ substitutions now srcName home, e.1 ≠ p →
        ¬ e.1 <:+: (l0 ++ (p ++ (l1 ++ (p ++ l2))))) →
      _expand_path_template now srcName home (l0 ++ (p ++ (l1 ++ (p ++ l2)))) =
        l0 ++ (vp ++ (l1 ++ (vp ++ l2)))) ∧
    (∀ (now : PyDateTime) (srcName home : String) (t : List Char),
      (∀ e ∈ substitutions now srcName home, ¬ e.1 <:+: t) →
      _expand_path_template now srcName home t = t) ∧
    (pySuffix "archive.tar.gz" = ".gz" ∧
      _expand_path_template sampleNow "archive.tar.gz" "/home/u"
          (phHOME ++ (['/', 'X', '/'] ++ phEXT)) = "/home/u/X/.gz".data ∧
      _expand_path_template sampleNow "archive.tar.gz" "/home/u"
          (phHOME ++ (['/', 'X', '/'] ++ phEXT)) ≠ "/home/u/X/.tar.gz".data) := by
  refine ⟨?_, ?_, ?_, ?_, ?_⟩
  · intro now srcName home p vp l0 l1 l2 hmem h0 h1 h2 hvp hother
    unfold _expand_path_template
    exact foldl_replace_template (substitutions now srcName home) p vp l0 l1 l2
      (substitutions_heads now srcName home) (substitutions_nodup now srcName home)
      hmem h0 h1 h2 hvp hother
  · intro now srcName home t h
    unfold _expand_path_template
    exact foldl_replace_id (substitutions now srcName home) t h
  · decide
  · decide
  · decide

/-- Claim C4 witness: both occurrences of EXT in a concrete template are
replaced by the final suffix of archive.tar.gz. -/
theorem C4_template_expansion_witness :
    _expand_path_template sampleNow "archive.tar.gz" "/home/u"
        (['A', '/'] ++ (phEXT ++ (['-'] ++ (phEXT ++ ['.', 't', 'x', 't'])))) =
      ['A', '/'] ++ (".gz".data ++ (['-'] ++ (".gz".data ++ ['.', 't', 'x', 't']))) := by
  exact C4_template_expansion.1 sampleNow "archive.tar.gz" "/home/u" phEXT ".gz".data
    ['A', '/'] ['-'] ['.', 't', 'x', 't'] (by decide) (by decide) (by decide) (by decide)
    (by decide) (by decide)

/-- Environment fixture whose directory creation fails. -/
def envFail : OrganizeEnv :=
  ⟨sampleNow, "/home/u", fun _ => false, IOResult.err "denied", IOResult.ok⟩

/-- Classification fixture carrying a move_to template. -/
def clsMove : Classification :=
  { label := "finance", tags := [], mime_type := "application/pdf",
    confidence := 9/10, metadata := ⟨"a.pdf", ".pdf", 1⟩,
    rule_matched := some "R", move_to := some "/tmp/F", rename_to := none }

/-- Classification fixture without a move_to template. -/
def clsStay : Classification :=
  { clsMove with move_to := none }

/-- Claim C6 witness: a failing mkdir yields the source path and one error
activity entry, and an absent move_to yields the source path with nothing
logged. -/
theorem C6_organize_safe_witness :
    organize_file envFail "/w/a.pdf" clsMove =
      ("/w/a.pdf", [⟨"file_organize_failed", "/w/a.pdf", "error"⟩]) ∧
    organize_file envFail "/w/a.pdf" clsStay = ("/w/a.pdf", []) :=
  ⟨(C6_organize_safe envFail "/w/a.pdf" clsMove).2.1 "/tmp/F" "denied" rfl rfl,
   (C6_organize_safe envFail "/w/a.pdf" clsStay).1 rfl⟩
